import Mathlib

/-!
Verification of the fabula Yarn-bytecode runtime core: a shallow embedding of
the value model (`src/model.rs`), evaluation stack and interpreter
(`src/runner.rs`), function library (`src/function.rs`, `src/function/builtins.rs`),
story facade (`src/story.rs`) and variable store (`src/variables.rs`),
together with theorems settling the specification claims.
-/

deriving instance DecidableEq for Except

namespace Fabula

/-- Model of Rust `f32` as an exact rational stored as an unnormalised
numerator/denominator pair.  Every `f32` value appearing in the claims is an
exact dyadic rational, and the operations the source applies to them
(`+` in `Number.Add`, `floor`, `ceil`, `as usize` truncation, `> 0.0`,
`Display` formatting) are exact on such values, so exact rational arithmetic
models them faithfully. -/
structure F32 where
  num : Int
  den : Nat
deriving DecidableEq

/-- Addition of two `f32` values (exact on the dyadic rationals involved). -/
def F32.add (a b : F32) : F32 :=
  ⟨a.num * b.den + b.num * a.den, a.den * b.den⟩

/-- Rust `f32::floor`. -/
def F32.floor (a : F32) : F32 :=
  ⟨a.num.fdiv a.den, 1⟩

/-- Rust `f32::ceil`. -/
def F32.ceil (a : F32) : F32 :=
  ⟨-((-a.num).fdiv a.den), 1⟩

/-- Rust `f32 as usize`: truncation toward zero, saturating at zero for
negative values (so floor division followed by `Int.toNat` agrees with it on
every rational). -/
def F32.toUsize (a : F32) : Nat :=
  (a.num.fdiv a.den).toNat

/-- Comparison `a > 0.0` on the model. -/
def F32.isPos (a : F32) : Bool :=
  0 < a.num

/-- Decimal digits of an integer, used by the `Display` model. -/
def intRepr (i : Int) : String :=
  if i < 0 then "-" ++ toString i.natAbs else toString i.natAbs

/-- Search for the least exponent `k ≤ budget` with `den ∣ 10 ^ k`. -/
def findPow10 (den : Nat) : Nat → Nat → Option Nat
  | k, 0 => if den ∣ 10 ^ k then some k else none
  | k, b + 1 => if den ∣ 10 ^ k then some k else findPow10 den (k + 1) b

/-- Pad a digit string on the left with zeros up to width `w`. -/
def padZeros (s : String) (w : Nat) : String :=
  String.mk (List.replicate (w - s.length) '0') ++ s

/-- Model of Rust `format!("\x7b\x7d", x)` for `f32`, on the exact rationals of
this development: the shortest decimal expansion, with no fractional part for
integers (`7.0` prints as `"7"`, `1.5` as `"1.5"`).  The pair is reduced first
so that unnormalised representations format by their value.  Every `f32` in the
source's test vectors is a terminating decimal, where this model agrees with
Rust's shortest-roundtrip formatting. -/
def F32.fmt (a : F32) : String :=
  let g := Nat.gcd a.num.natAbs a.den
  let n := a.num / (g : Int)
  let d := a.den / g
  if d = 1 then intRepr n
  else
    match findPow10 d 0 200 with
    | some k =>
      let scaled := n.natAbs * 10 ^ k / d
      let ip := scaled / 10 ^ k
      let fp := scaled % 10 ^ k
      (if n < 0 then "-" else "") ++ toString ip ++ "." ++ padZeros (toString fp) k
    | none => intRepr n ++ "/" ++ toString d

/-- Tagged scalar value (`Operand::Value` from the Yarn wire schema, re-exported
by `src/model.rs`): exactly the three variants string, f32 and bool. -/
inductive Value where
  | StringValue (s : String)
  | BoolValue (b : Bool)
  | FloatValue (f : F32)
deriving DecidableEq

/-- Error type `ValueError` of `src/model.rs`. -/
inductive ValueError where
  | UnexpectedType (expected : String) (value : Value)
  | Missing
deriving DecidableEq

/-- Rust `format!("\x7b\x7d", b)` for `bool`. -/
def boolFmt (b : Bool) : String :=
  if b then "true" else "false"

/-- The `TryFrom<Value> for String` impl of `src/model.rs`: strings convert
directly, numbers and booleans are coerced through their `Display` formatting. -/
def tryFromString : Value → Except ValueError String
  | .StringValue v => .ok v
  | .FloatValue v => .ok (F32.fmt v)
  | .BoolValue v => .ok (boolFmt v)

/-- The `value_conversion!(Value::BoolValue, bool)` impl of `src/model.rs`. -/
def tryFromBool : Value → Except ValueError Bool
  | .BoolValue v => .ok v
  | v => .error (.UnexpectedType "Value::BoolValue" v)

/-- The `value_conversion!(Value::FloatValue, f32)` impl of `src/model.rs`. -/
def tryFromFloat : Value → Except ValueError F32
  | .FloatValue v => .ok v
  | v => .error (.UnexpectedType "Value::FloatValue" v)

/-- The `From<String> for Value` impl of `src/model.rs`. -/
def valueFromString (s : String) : Value := .StringValue s

/-- The `From<bool> for Value` impl generated by `value_conversion!`. -/
def valueFromBool (b : Bool) : Value := .BoolValue b

/-- The `From<f32> for Value` impl generated by `value_conversion!`. -/
def valueFromFloat (f : F32) : Value := .FloatValue f

example : tryFromString (.FloatValue ⟨3, 2⟩) = .ok "1.5" := by decide
example : tryFromString (.FloatValue ⟨7, 1⟩) = .ok "7" := by decide
example : tryFromString (.BoolValue true) = .ok "true" := by decide
example : tryFromFloat (.StringValue "1.5")
    = .error (.UnexpectedType "Value::FloatValue" (.StringValue "1.5")) := by decide

/-- Wire-schema `Operand`: an optional `Value` (`operand.value` may be absent). -/
structure Operand where
  value : Option Value
deriving DecidableEq

/-- Wire-schema `Instruction`: an integer-coded opcode plus positional operands. -/
structure Instruction where
  opcode : Int
  operands : List Operand
deriving DecidableEq

/-- Wire-schema `Node`: name, instruction list and the label table mapping label
names to i32 instruction offsets.  The association list models the prost map
field; lookups in the source go through map `get`. -/
structure Node where
  name : String
  instructions : List Instruction
  labels : List (String × Int)
deriving DecidableEq

/-- Wire-schema `Program`: nodes keyed by name and initial variable values. -/
structure Program where
  nodes : List (String × Node)
  initialValues : List (String × Operand)
deriving DecidableEq

/-- Opcode enumeration of the Yarn instruction set, in wire order. -/
inductive OpCode where
  | JumpTo
  | Jump
  | RunLine
  | RunCommand
  | AddOption
  | ShowOptions
  | PushString
  | PushFloat
  | PushBool
  | PushNull
  | JumpIfFalse
  | Pop
  | CallFunc
  | PushVariable
  | StoreVariable
  | Stop
  | RunNode
deriving DecidableEq

/-- Modelled from the spec: the prost-generated `OpCode::from_i32` decoder for
the wire schema under `third-party/yarn-spinner` (not in `src/`); opcodes are
integer-coded consecutively in the order the spec lists them, unknown integers
decode to `None`. -/
def OpCode.fromI32 : Int → Option OpCode
  | 0 => some .JumpTo
  | 1 => some .Jump
  | 2 => some .RunLine
  | 3 => some .RunCommand
  | 4 => some .AddOption
  | 5 => some .ShowOptions
  | 6 => some .PushString
  | 7 => some .PushFloat
  | 8 => some .PushBool
  | 9 => some .PushNull
  | 10 => some .JumpIfFalse
  | 11 => some .Pop
  | 12 => some .CallFunc
  | 13 => some .PushVariable
  | 14 => some .StoreVariable
  | 15 => some .Stop
  | 16 => some .RunNode
  | _ => none

/-- Error type `NodeError` of `src/model.rs`. -/
inductive NodeError where
  | InvalidLabel (name : String)
deriving DecidableEq

/-- Method `Node::resolve_label` of `src/model.rs`: look the label up in the
node's label table and cast the stored i32 offset with `as usize` (remainder
modulo 2^64 models the cast's two's-complement wrap). -/
def Node.resolve_label (node : Node) (name : String) : Except NodeError Nat :=
  match node.labels.lookup name with
  | some pc => .ok (Int.toNat (pc % (2 ^ 64 : Int)))
  | none => .error (.InvalidLabel name)

/-- Method `Operands::at` of `src/model.rs`: fetch the indexed operand's inner
value, failing `Missing` when the operand or its value is absent.  The typed
callers compose this with a `TryFrom` conversion via `Except.bind`. -/
def Operands.at (ops : List Operand) (index : Nat) : Except ValueError Value :=
  match (ops.get? index).bind Operand.value with
  | some v => .ok v
  | none => .error .Missing

/-- Variable store model: the `VariableStore` impl for `HashMap<String, Value>`
of `src/variables.rs`, as an association list with first-match lookup. -/
abbrev VarStore := List (String × Value)

/-- Trait method `VariableStore::get` (the `HashMap` impl). -/
def VarStore.get (vars : VarStore) (name : String) : Option Value :=
  vars.lookup name

/-- Trait method `VariableStore::set` (the `HashMap` impl): insert or replace,
returning the new store (the returned previous value is unused by the runner). -/
def VarStore.set (vars : VarStore) (name : String) (value : Value) : VarStore :=
  (name, value) :: vars.filter (fun p => !(p.1 == name))

/-- Struct `Story` of `src/story.rs`: a thin query facade over a `Program`. -/
structure Story where
  program : Program
deriving DecidableEq

/-- Method `Story::node`. -/
def Story.node (s : Story) (name : String) : Option Node :=
  s.program.nodes.lookup name

/-- Method `Story::initial_value`.  The outer option is map lookup absence; the
inner option carries the operand's value, on which the source calls
`expect("operand must have a value")` — the `some none` case is therefore a
panic at the call site in the interpreter. -/
def Story.initial_value (s : Story) (name : String) : Option (Option Value) :=
  (s.program.initialValues.lookup name).map Operand.value

/-- Struct `EvaluationStack` of `src/runner.rs`: a `Vec<Value>` in push order,
so index 0 is the bottom and the last element is the top. -/
abbrev EvaluationStack := List Value

/-- Method `EvaluationStack::push` (`Vec::push` appends at the end). -/
def EvaluationStack.push (s : EvaluationStack) (v : Value) : EvaluationStack :=
  s ++ [v]

/-- Method `EvaluationStack::pop_any` (`Vec::pop` removes the last element),
returning the popped value and the remaining stack. -/
def EvaluationStack.pop_any (s : EvaluationStack) :
    Except ValueError (Value × EvaluationStack) :=
  match s.getLast? with
  | some v => .ok (v, s.dropLast)
  | none => .error .Missing

/-- Method `EvaluationStack::peek_any`: the source reads `self.0.get(0)`, the
element at index 0 of the backing `Vec` — the bottom of the stack. -/
def EvaluationStack.peek_any (s : EvaluationStack) : Except ValueError Value :=
  match s.get? 0 with
  | some v => .ok v
  | none => .error .Missing

/-- Method `EvaluationStack::peek::<T>`: reads `self.0.get(0)` (index 0, the
bottom) and applies the `TryFrom<Value>` conversion. -/
def EvaluationStack.peek {α : Type} (conv : Value → Except ValueError α)
    (s : EvaluationStack) : Except ValueError α :=
  match s.get? 0 with
  | some v => conv v
  | none => .error .Missing

/-- Method `EvaluationStack::pop::<T>`: pop the top, then convert. -/
def EvaluationStack.pop {α : Type} (conv : Value → Except ValueError α)
    (s : EvaluationStack) : Except ValueError (α × EvaluationStack) :=
  match s.getLast? with
  | some v => (conv v).map (fun a => (a, s.dropLast))
  | none => .error .Missing

/-- Error type `CallError` of `src/function.rs`. -/
inductive CallError where
  | UnknownFunction (name : String)
  | InvalidArguments (expected : String) (found : Value)
  | InvalidArgumentCount (expected actual : Nat)
deriving DecidableEq

/-- Struct `CallContext` of `src/function.rs`: the current node, the story and
the variable store (mutable in Rust; every function in this repository only
reads it, so the model passes it by value and functions return only a `Value`). -/
structure CallContext where
  node : Node
  story : Story
  vars : VarStore

/-- Object-safe surface `UntypedFunction::call` of `src/function.rs`: the
uniform invocation signature `(context, Vec<Value>) -> Result<Value, CallError>`. -/
def FuncImpl : Type :=
  CallContext → List Value → Except CallError Value

/-- Struct `Library` of `src/function.rs`: a map from name to boxed callable,
modelled as an association list where `register` prepends (matching
`HashMap::insert` overwrite observationally, since lookup takes the first hit). -/
def Library : Type :=
  List (String × FuncImpl)

/-- Method `Library::new`. -/
def Library.new : Library := []

/-- Method `Library::register`. -/
def Library.register (lib : Library) (name : String) (f : FuncImpl) : Library :=
  (name, f) :: lib

/-- Method `Library::call`: look the function up by name, failing
`UnknownFunction` when absent, and otherwise invoke it. -/
def Library.call (lib : Library) (name : String) (context : CallContext)
    (args : List Value) : Except CallError Value :=
  match List.lookup name lib with
  | none => .error (.UnknownFunction name)
  | some f => f context args

/-- Positional argument descriptor used by the `impl_function!` wrappers: the
`TryFrom<Value>` conversion for a parameter type together with the
`type_name::<T>()` string the macro embeds in `InvalidArguments` errors. -/
structure Converter (α : Type) where
  typeName : String
  convert : Value → Except ValueError α

/-- Converter for `String` parameters. -/
def stringConv : Converter String :=
  ⟨"alloc::string::String", tryFromString⟩

/-- Converter for `f32` parameters. -/
def floatConv : Converter F32 :=
  ⟨"f32", tryFromFloat⟩

/-- Converter for `bool` parameters. -/
def boolConv : Converter Bool :=
  ⟨"bool", tryFromBool⟩

/-- The `Function` impl generated by `impl_function!(P1)` in `src/function.rs`:
destructure the argument vector against the arity (else
`InvalidArgumentCount(1, actual)`), convert the argument (first failure yields
`InvalidArguments(type_name, value)`), invoke the callable and wrap its result
back into a `Value`. -/
def functionCall1 {α R : Type} (c1 : Converter α) (toVal : R → Value)
    (f : CallContext → α → R) : FuncImpl :=
  fun context args =>
    match args with
    | [v1] =>
      match c1.convert v1 with
      | .ok a => .ok (toVal (f context a))
      | .error _ => .error (.InvalidArguments c1.typeName v1)
    | _ => .error (.InvalidArgumentCount 1 args.length)

/-- The `Function` impl generated by `impl_function!(P1, P2)`: as for arity 1,
with the two arguments converted positionally left to right. -/
def functionCall2 {α β R : Type} (c1 : Converter α) (c2 : Converter β)
    (toVal : R → Value) (f : CallContext → α → β → R) : FuncImpl :=
  fun context args =>
    match args with
    | [v1, v2] =>
      match c1.convert v1 with
      | .error _ => .error (.InvalidArguments c1.typeName v1)
      | .ok a =>
        match c2.convert v2 with
        | .error _ => .error (.InvalidArguments c2.typeName v2)
        | .ok b => .ok (toVal (f context a b))
    | _ => .error (.InvalidArgumentCount 2 args.length)

/-- Arities for which `src/function.rs` instantiates `impl_function!`
(`impl_function!(P1); impl_function!(P1, P2);` at the end of the file): the
blanket `Function` impls exist exactly for callables of one and two typed
parameters after the context argument. -/
def implementedArities : List Nat := [1, 2]

/-- Function `visit_count_var_name` of `src/function/builtins.rs`. -/
def visit_count_var_name (nodeName : String) : String :=
  "$Yarn.Internal.Visiting." ++ nodeName

/-- Builtin `visited_count` of `src/function/builtins.rs`. -/
def visited_count (context : CallContext) (name : String) : F32 :=
  match VarStore.get context.vars (visit_count_var_name name) with
  | some (.FloatValue c) => c
  | _ => ⟨0, 1⟩

/-- Builtin `visited` of `src/function/builtins.rs`. -/
def visited (context : CallContext) (name : String) : Bool :=
  (visited_count context name).isPos

/-- Method `Library::builtins` of `src/function.rs`, registering the mandatory
functions in source order. -/
def Library.builtins : Library :=
  let lib := Library.new
  let lib := lib.register "visited" (functionCall1 stringConv valueFromBool visited)
  let lib := lib.register "visited_count"
    (functionCall1 stringConv valueFromFloat visited_count)
  let lib := lib.register "floor"
    (functionCall1 floatConv valueFromFloat (fun _ a => a.floor))
  let lib := lib.register "ceil"
    (functionCall1 floatConv valueFromFloat (fun _ a => a.ceil))
  let lib := lib.register "Bool.EqualTo"
    (functionCall2 boolConv boolConv valueFromBool (fun _ a b => a == b))
  let lib := lib.register "Bool.Not"
    (functionCall1 boolConv valueFromBool (fun _ a => !a))
  let lib := lib.register "Bool.And"
    (functionCall2 boolConv boolConv valueFromBool (fun _ a b => a && b))
  let lib := lib.register "Number.Add"
    (functionCall2 floatConv floatConv valueFromFloat (fun _ a b => a.add b))
  lib

/-- Enum `StoryEvent` of `src/runner.rs`. -/
inductive StoryEvent where
  | Started
  | AddOption (enabled : Bool) (key : String) (substitutions : List String)
      (target : String)
  | ShowOptions
  | ShowLine (key : String) (substitutions : List String)
  | Command (text : String)
  | Complete
deriving DecidableEq

/-- Struct `StoryCheckpoint` of `src/runner.rs`: the node, the offset of the
next instruction, and the stack snapshot. -/
structure StoryCheckpoint where
  node : Node
  node_instruction_offset : Nat
  stack : EvaluationStack
deriving DecidableEq

/-- Method `StoryCheckpoint::new`: offset 0 with an empty stack. -/
def StoryCheckpoint.new (node : Node) : StoryCheckpoint :=
  ⟨node, 0, []⟩

/-- Method `StoryCheckpoint::select_option`: push the chosen option's target
name onto the stack snapshot. -/
def StoryCheckpoint.select_option (cp : StoryCheckpoint) (name : String) :
    StoryCheckpoint :=
  ⟨cp.node, cp.node_instruction_offset, cp.stack.push (.StringValue name)⟩

/-- Method `Story::checkpoint_at` of `src/story.rs`. -/
def Story.checkpoint_at (s : Story) (name : String) : Option StoryCheckpoint :=
  (s.node name).map StoryCheckpoint.new

/-- Enum `InstructionError` of `src/runner.rs`. -/
inductive InstructionError where
  | BadNode (e : NodeError)
  | InvalidInstruction (code : Int)
  | UnsupportedInstruction (op : OpCode)
  | FunctionCall (e : CallError)
  | Evaluation (e : ValueError)
deriving DecidableEq

/-- Struct `StoryRunnerError` of `src/runner.rs`: the instruction-level error
wrapped with the offending node name, program counter and instruction. -/
structure StoryRunnerError where
  source : InstructionError
  node : String
  pc : Nat
  instruction : Instruction
deriving DecidableEq

/-- Enum `ControlFlow` of `src/runner.rs`. -/
inductive ControlFlow where
  | Next
  | Jump (node : Node) (target : Nat)
deriving DecidableEq

/-- Outcome of running Rust code that can return `Ok`, return `Err`, or panic:
the panic channel carries the panic message and models `unwrap`/`expect` and
out-of-bounds indexing, which are not values in Rust. -/
inductive PResult (ε α : Type) where
  | ok (a : α)
  | error (e : ε)
  | panic (msg : String)
deriving DecidableEq

/-- Sequencing of panicking computations: propagate errors and panics. -/
def PResult.bind {ε α β : Type} : PResult ε α → (α → PResult ε β) → PResult ε β
  | .ok a, f => f a
  | .error e, _ => .error e
  | .panic m, _ => .panic m

instance {ε : Type} : Monad (PResult ε) where
  pure := .ok
  bind := PResult.bind

/-- Lift a fallible evaluation into the interpreter's error type (the
`#[from] ValueError` conversion of `InstructionError::Evaluation`). -/
def liftVal {α : Type} : Except ValueError α → PResult InstructionError α
  | .ok a => .ok a
  | .error e => .error (.Evaluation e)

/-- Lift a label-resolution result (`#[from] NodeError` into
`InstructionError::BadNode`). -/
def liftNode {α : Type} : Except NodeError α → PResult InstructionError α
  | .ok a => .ok a
  | .error e => .error (.BadNode e)

/-- Lift a function-call result (`#[from] CallError` into
`InstructionError::FunctionCall`). -/
def liftCall {α : Type} : Except CallError α → PResult InstructionError α
  | .ok a => .ok a
  | .error e => .error (.FunctionCall e)

/-- Fuel-bounded model of Rust `str::replace` for a non-empty pattern: replace
every non-overlapping occurrence of `pat`, scanning left to right.  Fuel at
least the subject's length makes the recursion total; the interpreter only ever
replaces the non-empty patterns `"\x7bi\x7d"`. -/
def listReplaceAux (pat rep : List Char) : Nat → List Char → List Char
  | 0, s => s
  | _, [] => []
  | fuel + 1, c :: rest =>
    if pat.isPrefixOf (c :: rest) then
      rep ++ listReplaceAux pat rep fuel ((c :: rest).drop pat.length)
    else
      c :: listReplaceAux pat rep fuel rest

/-- Model of Rust `str::replace` (as used with the non-empty patterns
`"\x7bi\x7d"` in `RunCommand`). -/
def strReplace (s pat rep : String) : String :=
  ⟨listReplaceAux pat.data rep.data s.data.length s.data⟩

example : strReplace "wait \x7b0\x7d \x7b1\x7d" "\x7b1\x7d" "slow"
    = "wait \x7b0\x7d slow" := by decide

/-- The substitution-popping loop shared by `RunLine` and `AddOption`: pop
`count` strings off the stack, returned in pop order (top first); the source
then reverses the vector. -/
def popStrings : Nat → EvaluationStack → Except ValueError (List String × EvaluationStack)
  | 0, s => .ok ([], s)
  | n + 1, s => do
    let (v, s) ← EvaluationStack.pop tryFromString s
    let (rest, s) ← popStrings n s
    .ok (v :: rest, s)

/-- The parameter-popping loop of `CallFunc`: pop `count` values with
`pop_any`, returned in pop order (top first); the source then reverses. -/
def popValues : Nat → EvaluationStack → Except ValueError (List Value × EvaluationStack)
  | 0, s => .ok ([], s)
  | n + 1, s => do
    let (v, s) ← EvaluationStack.pop_any s
    let (rest, s) ← popValues n s
    .ok (v :: rest, s)

/-- The substitution loop of `RunCommand`: for indices from `count - 1` down to
0, pop a string and replace the literal `"\x7bindex\x7d"` in the command text. -/
def substituteCommand : Nat → String → EvaluationStack →
    Except ValueError (String × EvaluationStack)
  | 0, text, s => .ok (text, s)
  | n + 1, text, s => do
    let (sub, s) ← EvaluationStack.pop tryFromString s
    let search := "\x7b" ++ toString n ++ "\x7d"
    substituteCommand n (strReplace text search sub) s

/-- Result carried by one executed instruction: control flow, an optional
narrative event, and the updated stack and variable store (state passed
explicitly for the Rust `&mut` parameters). -/
def ExecOut : Type :=
  ControlFlow × Option StoryEvent × EvaluationStack × VarStore

/-- Method `StoryRunner::execute` of `src/runner.rs`: the per-opcode semantics.
Each arm is a direct transcription of the corresponding Rust match arm,
including the `RunNode` arm's `story.node(..).unwrap()`, which panics when the
target node is missing, and `PushVariable`'s use of `Story::initial_value`,
whose inner `expect` panics on a valueless stored operand. -/
def execute (lib : Library) (story : Story) (node : Node) (opcode : OpCode)
    (operands : List Operand) (stack : EvaluationStack) (vars : VarStore) :
    PResult InstructionError ExecOut :=
  match opcode with
  | .JumpTo => do
    let labelName ← liftVal ((Operands.at operands 0).bind tryFromString)
    let labelOffset ← liftNode (node.resolve_label labelName)
    pure (.Jump node labelOffset, none, stack, vars)
  | .Jump => do
    let (labelName, stack) ← liftVal (EvaluationStack.pop tryFromString stack)
    let labelOffset ← liftNode (node.resolve_label labelName)
    pure (.Jump node labelOffset, none, stack, vars)
  | .RunLine => do
    let key ← liftVal ((Operands.at operands 0).bind tryFromString)
    if operands.length > 1 then do
      let count ← liftVal ((Operands.at operands 1).bind tryFromFloat)
      let (subs, stack) ← liftVal (popStrings count.toUsize stack)
      pure (.Next, some (.ShowLine key subs.reverse), stack, vars)
    else
      pure (.Next, some (.ShowLine key []), stack, vars)
  | .RunCommand => do
    let text ← liftVal ((Operands.at operands 0).bind tryFromString)
    if operands.length > 1 then do
      let count ← liftVal ((Operands.at operands 1).bind tryFromFloat)
      let (text, stack) ← liftVal (substituteCommand count.toUsize text stack)
      pure (.Next, some (.Command text), stack, vars)
    else
      pure (.Next, some (.Command text), stack, vars)
  | .AddOption => do
    let key ← liftVal ((Operands.at operands 0).bind tryFromString)
    let target ← liftVal ((Operands.at operands 1).bind tryFromString)
    let (subs, stack) ←
      if operands.length > 2 then do
        let count ← liftVal ((Operands.at operands 2).bind tryFromFloat)
        let (subs, stack) ← liftVal (popStrings count.toUsize stack)
        pure (subs.reverse, stack)
      else
        pure ([], stack)
    let (enabled, stack) ←
      if operands.length > 3 then do
        let flagged ← liftVal ((Operands.at operands 3).bind tryFromBool)
        if flagged then do
          let (b, stack) ← liftVal (EvaluationStack.pop tryFromBool stack)
          pure (b, stack)
        else
          pure (true, stack)
      else
        pure (true, stack)
    pure (.Next, some (.AddOption enabled key subs target), stack, vars)
  | .ShowOptions =>
    pure (.Next, some .ShowOptions, stack, vars)
  | .PushString => do
    let v ← liftVal ((Operands.at operands 0).bind tryFromString)
    pure (.Next, none, stack.push (valueFromString v), vars)
  | .PushFloat => do
    let v ← liftVal ((Operands.at operands 0).bind tryFromFloat)
    pure (.Next, none, stack.push (valueFromFloat v), vars)
  | .PushBool => do
    let v ← liftVal ((Operands.at operands 0).bind tryFromBool)
    pure (.Next, none, stack.push (valueFromBool v), vars)
  | .PushNull =>
    .error (.UnsupportedInstruction .PushNull)
  | .JumpIfFalse => do
    let condition ← liftVal (EvaluationStack.peek tryFromBool stack)
    if condition then
      pure (.Next, none, stack, vars)
    else do
      let targetName ← liftVal ((Operands.at operands 0).bind tryFromString)
      let target ← liftNode (node.resolve_label targetName)
      pure (.Jump node target, none, stack, vars)
  | .Pop => do
    let (_, stack) ← liftVal (EvaluationStack.pop_any stack)
    pure (.Next, none, stack, vars)
  | .CallFunc => do
    let name ← liftVal ((Operands.at operands 0).bind tryFromString)
    let (count, stack) ← liftVal (EvaluationStack.pop tryFromFloat stack)
    let (parameters, stack) ← liftVal (popValues count.toUsize stack)
    let returnValue ← liftCall
      (Library.call lib name ⟨node, story, vars⟩ parameters.reverse)
    pure (.Next, none, stack.push returnValue, vars)
  | .PushVariable => do
    let varName ← liftVal ((Operands.at operands 0).bind tryFromString)
    match VarStore.get vars varName with
    | some v => pure (.Next, none, stack.push v, vars)
    | none =>
      match Story.initial_value story varName with
      | some (some v) => pure (.Next, none, stack.push v, vars)
      | some none => .panic "operand must have a value"
      | none => .error (.Evaluation .Missing)
  | .StoreVariable => do
    let value ← liftVal (EvaluationStack.peek_any stack)
    let varName ← liftVal ((Operands.at operands 0).bind tryFromString)
    pure (.Next, none, stack, VarStore.set vars varName value)
  | .Stop =>
    pure (.Next, some .Complete, stack, vars)
  | .RunNode => do
    let (nodeName, stack) ← liftVal (EvaluationStack.pop tryFromString stack)
    match Story.node story nodeName with
    | some newNode => pure (.Jump newNode 0, none, stack, vars)
    | none => .panic "called Option::unwrap() on a None value"

/-- Method `StoryRunner::step` of `src/runner.rs`, with the loop unrolled into
fuel-bounded recursion (fuel exhaustion is reported as the distinguished panic
`"fuel"`; the Rust loop simply never returns on such programs).  Fetching past
the end of the instruction array is the Rust indexing panic. -/
def stepFuel (lib : Library) (story : Story) : Nat → Node → Nat →
    EvaluationStack → VarStore →
    PResult StoryRunnerError ((StoryCheckpoint × StoryEvent) × VarStore)
  | 0, _, _, _, _ => .panic "fuel"
  | fuel + 1, node, pc, stack, vars =>
    match node.instructions.get? pc with
    | none => .panic "index out of bounds"
    | some instruction =>
      let stepRes : PResult InstructionError ExecOut :=
        match OpCode.fromI32 instruction.opcode with
        | none => .error (.InvalidInstruction instruction.opcode)
        | some opcode => execute lib story node opcode instruction.operands stack vars
      match stepRes with
      | .panic m => .panic m
      | .error source => .error ⟨source, node.name, pc, instruction⟩
      | .ok (flow, event, stack, vars) =>
        let next : Node × Nat :=
          match flow with
          | .Next => (node, pc + 1)
          | .Jump n target => (n, target)
        match event with
        | some e => .ok ((⟨next.1, next.2, stack⟩, e), vars)
        | none => stepFuel lib story fuel next.1 next.2 stack vars

/-- Method `StoryRunner::step` entry point, taking a checkpoint apart exactly
as the Rust destructuring does. -/
def step (lib : Library) (story : Story) (fuel : Nat) (cp : StoryCheckpoint)
    (vars : VarStore) :
    PResult StoryRunnerError ((StoryCheckpoint × StoryEvent) × VarStore) :=
  stepFuel lib story fuel cp.node cp.node_instruction_offset cp.stack vars

/-- Shorthand for a single-value operand list holding a string. -/
def strOp (s : String) : Operand := ⟨some (.StringValue s)⟩

/-- Shorthand for an operand holding an f32. -/
def floatOp (n : Int) (d : Nat) : Operand := ⟨some (.FloatValue ⟨n, d⟩)⟩

/-- A story with no nodes and no initial values, for scenarios that never leave
the starting node. -/
def emptyStory : Story := ⟨⟨[], []⟩⟩

/-- Node of the missing-target `RunNode` scenario: push the name of a node the
story does not contain, then `RunNode`. -/
def runNodeCrashNode : Node :=
  ⟨"A", [⟨6, [strOp "B"]⟩, ⟨16, []⟩], []⟩

/-- Story containing only `runNodeCrashNode`, so the pushed target "B" is
absent. -/
def runNodeCrashStory : Story := ⟨⟨[("A", runNodeCrashNode)], []⟩⟩

example : stepFuel [] runNodeCrashStory 10 runNodeCrashNode 0 [] []
    = .panic "called Option::unwrap() on a None value" := by decide

/-- Node of the function-call scenario:
`PushFloat 3; PushFloat 4; PushFloat 2; CallFunc "Number.Add"; Stop`. -/
def callFuncNode : Node :=
  ⟨"C6", [⟨7, [floatOp 3 1]⟩, ⟨7, [floatOp 4 1]⟩, ⟨7, [floatOp 2 1]⟩,
    ⟨12, [strOp "Number.Add"]⟩, ⟨15, []⟩], []⟩

example : stepFuel Library.builtins emptyStory 10 callFuncNode 0 [] []
    = .ok ((⟨callFuncNode, 5, [.FloatValue ⟨7, 1⟩]⟩, .Complete), []) := by decide

/-- Node of the conditional-false scenario:
`JumpIfFalse "end"; RunLine "skip" 0; Label end: Stop`. -/
def jumpIfFalseNode : Node :=
  ⟨"C8", [⟨10, [strOp "end"]⟩, ⟨2, [strOp "skip", floatOp 0 1]⟩, ⟨15, []⟩],
    [("end", 2)]⟩

example : stepFuel [] emptyStory 10 jumpIfFalseNode 0 [.BoolValue false] []
    = .ok ((⟨jumpIfFalseNode, 3, [.BoolValue false]⟩, .Complete), []) := by decide

/-- Node of the command-substitution scenario: a single
`RunCommand ["wait \x7b0\x7d \x7b1\x7d", 2.0]`. -/
def runCommandNode : Node :=
  ⟨"C9", [⟨3, [strOp "wait \x7b0\x7d \x7b1\x7d", floatOp 2 1]⟩], []⟩

example : stepFuel [] emptyStory 10 runCommandNode 0
      [.StringValue "2", .StringValue "slow"] []
    = .ok ((⟨runCommandNode, 1, []⟩, .Command "wait 2 slow"), []) := by decide

/-- Node of the checkpoint-purity counterexample:
`PushString "b"; PushVariable "x"; StoreVariable "x"; RunLine "l" 1`.  The step
reads the variable `x`, overwrites it with `"b"` (through the bottom-peeking
`StoreVariable`), and emits the read value as the line substitution. -/
def purityNode : Node :=
  ⟨"C5", [⟨6, [strOp "b"]⟩, ⟨13, [strOp "x"]⟩, ⟨14, [strOp "x"]⟩,
    ⟨2, [strOp "l", floatOp 1 1]⟩], []⟩

example : stepFuel [] emptyStory 10 purityNode 0 [] [("x", .StringValue "a")]
    = .ok ((⟨purityNode, 4, [.StringValue "b"]⟩, .ShowLine "l" ["a"]),
        [("x", .StringValue "b")]) := by decide

example : stepFuel [] emptyStory 10 purityNode 0 [] [("x", .StringValue "b")]
    = .ok ((⟨purityNode, 4, [.StringValue "b"]⟩, .ShowLine "l" ["b"]),
        [("x", .StringValue "b")]) := by decide

/-- Node of the out-of-range-offset counterexample: a single
`RunLine "k"` with no trailing instruction. -/
def lastLineNode : Node :=
  ⟨"C4", [⟨2, [strOp "k"]⟩], []⟩

example : stepFuel [] emptyStory 10 lastLineNode 0 [] []
    = .ok ((⟨lastLineNode, 1, []⟩, .ShowLine "k" []), []) := by decide

/-- Context used to instantiate library theorems at concrete inputs. -/
def dummyContext : CallContext := ⟨⟨"", [], []⟩, emptyStory, []⟩

/-- Instructions whose opcode decodes to neither `StoreVariable` nor
`CallFunc`, the two opcodes able to write the variable store. -/
def nodePreservesVars (n : Node) : Bool :=
  n.instructions.all (fun i =>
    match OpCode.fromI32 i.opcode with
    | some .StoreVariable => false
    | some .CallFunc => false
    | _ => true)

/-- A story all of whose nodes preserve the variable store. -/
def storyPreservesVars (s : Story) : Bool :=
  s.program.nodes.all (fun p => nodePreservesVars p.2)

/-- Node used to instantiate the amended checkpoint-purity theorem: one
`RunLine "w"` and no store-writing instruction. -/
def lineOnlyNode : Node :=
  ⟨"W5", [⟨2, [strOp "w"]⟩], []⟩

@[simp]
theorem pbind_ok {ε α β : Type} (a : α) (f : α → PResult ε β) :
    (PResult.ok a : PResult ε α) >>= f = f a := rfl

@[simp]
theorem pbind_error {ε α β : Type} (e : ε) (f : α → PResult ε β) :
    (PResult.error e : PResult ε α) >>= f = .error e := rfl

@[simp]
theorem pbind_panic {ε α β : Type} (m : String) (f : α → PResult ε β) :
    (PResult.panic m : PResult ε α) >>= f = .panic m := rfl

@[simp]
theorem ppure_eq_ok {ε α : Type} (a : α) :
    (pure a : PResult ε α) = .ok a := rfl

@[simp]
theorem liftVal_ok {α : Type} (a : α) :
    liftVal (.ok a) = (.ok a : PResult InstructionError α) := rfl

@[simp]
theorem liftVal_error {α : Type} (e : ValueError) :
    liftVal (α := α) (.error e) = .error (.Evaluation e) := rfl

@[simp]
theorem liftNode_ok {α : Type} (a : α) :
    liftNode (.ok a) = (.ok a : PResult InstructionError α) := rfl

@[simp]
theorem liftNode_error {α : Type} (e : NodeError) :
    liftNode (α := α) (.error e) = .error (.BadNode e) := rfl

@[simp]
theorem liftCall_ok {α : Type} (a : α) :
    liftCall (.ok a) = (.ok a : PResult InstructionError α) := rfl

@[simp]
theorem liftCall_error {α : Type} (e : CallError) :
    liftCall (α := α) (.error e) = .error (.FunctionCall e) := rfl

/-- C1: the claim says `peek_any` returns the top (most recently pushed)
element and `peek::<T>` its conversion, failing `Missing` only on the empty
stack.  At the two-element stack `[false, true]` (bottom to top) the source's
`self.0.get(0)` returns the bottom `false`, not the top `true`: the empty-stack
clauses hold but the top-element clause is refuted, confirming the suspected
bug the specification itself records. -/
theorem peek_reads_bottom_not_top :
    EvaluationStack.peek_any [.BoolValue false, .BoolValue true]
        = .ok (.BoolValue false)
  ∧ EvaluationStack.peek tryFromBool [.BoolValue false, .BoolValue true]
        = .ok false
  ∧ List.getLast? [Value.BoolValue false, Value.BoolValue true]
        = some (.BoolValue true)
  ∧ Value.BoolValue false ≠ Value.BoolValue true
  ∧ EvaluationStack.peek_any ([] : EvaluationStack) = .error .Missing
  ∧ EvaluationStack.peek tryFromBool ([] : EvaluationStack) = .error .Missing := by
  refine ⟨rfl, rfl, rfl, by decide, rfl, rfl⟩

/-- C2: the claim says a `RunNode` whose popped target is absent from the story
surfaces a returned `Err`.  The source instead calls
`story.node(name).unwrap()`, which panics: on the story whose only node pushes
the missing name "B" and runs `RunNode`, `step` panics rather than returning an
error. -/
theorem run_node_missing_target_panics :
    stepFuel [] runNodeCrashStory 10 runNodeCrashNode 0 [] []
      = .panic "called Option::unwrap() on a None value" := by decide

/-- C10: value conversions round-trip for every native string, f32 and bool,
and coercion is asymmetric: `Number(1.5)` converts to the string "1.5" while
`String("1.5")` fails to convert to f32 with `UnexpectedType`. -/
theorem value_roundtrip_and_coercion_asymmetry :
    (∀ s : String, tryFromString (valueFromString s) = .ok s)
  ∧ (∀ f : F32, tryFromFloat (valueFromFloat f) = .ok f)
  ∧ (∀ b : Bool, tryFromBool (valueFromBool b) = .ok b)
  ∧ tryFromString (Value.FloatValue ⟨3, 2⟩) = .ok "1.5"
  ∧ tryFromFloat (Value.StringValue "1.5")
      = .error (.UnexpectedType "Value::FloatValue" (.StringValue "1.5")) := by
  exact ⟨fun s => rfl, fun f => rfl, fun b => rfl, by decide, by decide⟩

/-- C3 counterexample: the claim asserts support for every arity `N ≥ 0`, but
the source instantiates `impl_function!` only for one and two parameters, so no
`Function` impl — and hence no registrable callable — exists for arity 0 (or
for any arity above 2). -/
theorem arity_zero_not_registrable :
    ¬ (0 ∈ implementedArities) ∧ ¬ (3 ∈ implementedArities) := by decide

/-- C3 (amended): for each arity the source instantiates — one and two typed
parameters after the context — a host callable with heterogeneous parameter
types can be registered under a name and dispatched through the uniform
surface: a call with convertible arguments reaches the callable with the
converted values and returns its wrapped result. -/
theorem library_supports_arities_one_and_two :
    (1 ∈ implementedArities ∧ 2 ∈ implementedArities)
  ∧ (∀ {α R : Type} (c1 : Converter α) (toVal : R → Value)
      (f : CallContext → α → R) (lib : Library) (name : String)
      (context : CallContext) (v1 : Value) (a : α),
      c1.convert v1 = .ok a →
      Library.call (Library.register lib name (functionCall1 c1 toVal f))
          name context [v1]
        = .ok (toVal (f context a)))
  ∧ (∀ {α β R : Type} (c1 : Converter α) (c2 : Converter β) (toVal : R → Value)
      (f : CallContext → α → β → R) (lib : Library) (name : String)
      (context : CallContext) (v1 v2 : Value) (a : α) (b : β),
      c1.convert v1 = .ok a → c2.convert v2 = .ok b →
      Library.call (Library.register lib name (functionCall2 c1 c2 toVal f))
          name context [v1, v2]
        = .ok (toVal (f context a b))) := by
  refine ⟨by decide, ?_, ?_⟩
  · intro α R c1 toVal f lib name context v1 a h1
    simp [Library.call, Library.register, List.lookup, functionCall1, h1]
  · intro α β R c1 c2 toVal f lib name context v1 v2 a b h1 h2
    simp [Library.call, Library.register, List.lookup, functionCall2, h1, h2]

/-- C3 witness: a heterogeneous two-parameter callable (bool then f32,
returning a string) registered under "fmt2" dispatches through the uniform
surface, and a one-parameter f32 callable under "half" does too. -/
theorem library_supports_arities_one_and_two_witness :
    Library.call (Library.register Library.new "fmt2"
        (functionCall2 boolConv floatConv valueFromString
          (fun _ b f => boolFmt b ++ F32.fmt f)))
        "fmt2" dummyContext [.BoolValue true, .FloatValue ⟨3, 2⟩]
      = .ok (.StringValue "true1.5")
  ∧ Library.call (Library.register Library.new "half"
        (functionCall1 floatConv valueFromFloat (fun _ f => f.floor)))
        "half" dummyContext [.FloatValue ⟨3, 2⟩]
      = .ok (.FloatValue ⟨1, 1⟩) := by
  constructor
  · exact (library_supports_arities_one_and_two.2.2 boolConv floatConv
      valueFromString (fun _ b f => boolFmt b ++ F32.fmt f) Library.new "fmt2"
      dummyContext (.BoolValue true) (.FloatValue ⟨3, 2⟩) true ⟨3, 2⟩ rfl rfl).trans
      (by decide)
  · exact (library_supports_arities_one_and_two.2.1 floatConv valueFromFloat
      (fun _ f => f.floor) Library.new "half" dummyContext (.FloatValue ⟨3, 2⟩)
      ⟨3, 2⟩ rfl).trans (by decide)

/-- C7: library dispatch checks in order — unknown name first
(`UnknownFunction`), then arity (`InvalidArgumentCount(expected, actual)`),
then positional conversion where the first failure yields
`InvalidArguments(type_name, offending_value)`, and only then is the callable
invoked; stated for lookup and for the generated wrappers of both implemented
arities. -/
theorem library_dispatch_error_order :
    (∀ (lib : Library) (name : String) (context : CallContext)
      (args : List Value),
      List.lookup name lib = none →
      Library.call lib name context args = .error (.UnknownFunction name))
  ∧ (∀ {α R : Type} (c1 : Converter α) (toVal : R → Value)
      (f : CallContext → α → R) (context : CallContext) (args : List Value),
      args.length ≠ 1 →
      functionCall1 c1 toVal f context args
        = .error (.InvalidArgumentCount 1 args.length))
  ∧ (∀ {α β R : Type} (c1 : Converter α) (c2 : Converter β) (toVal : R → Value)
      (f : CallContext → α → β → R) (context : CallContext) (args : List Value),
      args.length ≠ 2 →
      functionCall2 c1 c2 toVal f context args
        = .error (.InvalidArgumentCount 2 args.length))
  ∧ (∀ {α β R : Type} (c1 : Converter α) (c2 : Converter β) (toVal : R → Value)
      (f : CallContext → α → β → R) (context : CallContext) (v1 v2 : Value)
      (e : ValueError),
      c1.convert v1 = .error e →
      functionCall2 c1 c2 toVal f context [v1, v2]
        = .error (.InvalidArguments c1.typeName v1))
  ∧ (∀ {α β R : Type} (c1 : Converter α) (c2 : Converter β) (toVal : R → Value)
      (f : CallContext → α → β → R) (context : CallContext) (v1 v2 : Value)
      (a : α) (e : ValueError),
      c1.convert v1 = .ok a → c2.convert v2 = .error e →
      functionCall2 c1 c2 toVal f context [v1, v2]
        = .error (.InvalidArguments c2.typeName v2))
  ∧ (∀ {α β R : Type} (c1 : Converter α) (c2 : Converter β) (toVal : R → Value)
      (f : CallContext → α → β → R) (context : CallContext) (v1 v2 : Value)
      (a : α) (b : β),
      c1.convert v1 = .ok a → c2.convert v2 = .ok b →
      functionCall2 c1 c2 toVal f context [v1, v2]
        = .ok (toVal (f context a b))) := by
  refine ⟨?_, ?_, ?_, ?_, ?_, ?_⟩
  · intro lib name context args h
    simp [Library.call, h]
  · intro α R c1 toVal f context args h
    match args with
    | [] => rfl
    | [v] => exact absurd rfl h
    | v :: w :: t => rfl
  · intro α β R c1 c2 toVal f context args h
    match args with
    | [] => rfl
    | [v] => rfl
    | [v, w] => exact absurd rfl h
    | v :: w :: x :: t => rfl
  · intro α β R c1 c2 toVal f context v1 v2 e h1
    simp [functionCall2, h1]
  · intro α β R c1 c2 toVal f context v1 v2 a e h1 h2
    simp [functionCall2, h1, h2]
  · intro α β R c1 c2 toVal f context v1 v2 a b h1 h2
    simp [functionCall2, h1, h2]

/-- C7 witness: the dispatch error order at concrete inputs — unknown name,
wrong arity against the builtin two-parameter `Number.Add` wrapper, a
first-position conversion failure, a second-position conversion failure, and a
successful conversion reaching the callable. -/
theorem library_dispatch_error_order_witness :
    Library.call Library.new "nope" dummyContext [] = .error (.UnknownFunction "nope")
  ∧ functionCall2 floatConv floatConv valueFromFloat (fun _ a b => a.add b)
      dummyContext [.FloatValue ⟨3, 1⟩]
      = .error (.InvalidArgumentCount 2 1)
  ∧ functionCall2 floatConv floatConv valueFromFloat (fun _ a b => a.add b)
      dummyContext [.StringValue "x", .FloatValue ⟨4, 1⟩]
      = .error (.InvalidArguments "f32" (.StringValue "x"))
  ∧ functionCall2 floatConv floatConv valueFromFloat (fun _ a b => a.add b)
      dummyContext [.FloatValue ⟨3, 1⟩, .BoolValue true]
      = .error (.InvalidArguments "f32" (.BoolValue true))
  ∧ functionCall1 boolConv valueFromBool (fun _ a => !a) dummyContext []
      = .error (.InvalidArgumentCount 1 0)
  ∧ functionCall2 floatConv floatConv valueFromFloat (fun _ a b => a.add b)
      dummyContext [.FloatValue ⟨3, 1⟩, .FloatValue ⟨4, 1⟩]
      = .ok (.FloatValue ⟨7, 1⟩) := by
  refine ⟨?_, ?_, ?_, ?_, ?_, ?_⟩
  · exact library_dispatch_error_order.1 Library.new "nope" dummyContext [] rfl
  · exact library_dispatch_error_order.2.2.1 floatConv floatConv valueFromFloat
      (fun _ a b => a.add b) dummyContext [.FloatValue ⟨3, 1⟩] (by decide)
  · exact library_dispatch_error_order.2.2.2.1 floatConv floatConv valueFromFloat
      (fun _ a b => a.add b) dummyContext (.StringValue "x") (.FloatValue ⟨4, 1⟩)
      (.UnexpectedType "Value::FloatValue" (.StringValue "x")) rfl
  · exact library_dispatch_error_order.2.2.2.2.1 floatConv floatConv valueFromFloat
      (fun _ a b => a.add b) dummyContext (.FloatValue ⟨3, 1⟩) (.BoolValue true)
      ⟨3, 1⟩ (.UnexpectedType "Value::FloatValue" (.BoolValue true)) rfl rfl
  · exact library_dispatch_error_order.2.1 boolConv valueFromBool (fun _ a => !a)
      dummyContext [] (by decide)
  · exact (library_dispatch_error_order.2.2.2.2.2 floatConv floatConv
      valueFromFloat (fun _ a b => a.add b) dummyContext (.FloatValue ⟨3, 1⟩)
      (.FloatValue ⟨4, 1⟩) ⟨3, 1⟩ ⟨4, 1⟩ rfl rfl).trans (by decide)

@[simp]
theorem ebind_ok {ε α β : Type} (a : α) (f : α → Except ε β) :
    (Except.ok a : Except ε α) >>= f = f a := rfl

@[simp]
theorem ebind_error {ε α β : Type} (e : ε) (f : α → Except ε β) :
    (Except.error e : Except ε α) >>= f = .error e := rfl

@[simp]
theorem ebindf_ok {ε α β : Type} (a : α) (f : α → Except ε β) :
    Except.bind (Except.ok a : Except ε α) f = f a := rfl

@[simp]
theorem ebindf_error {ε α β : Type} (e : ε) (f : α → Except ε β) :
    Except.bind (Except.error e : Except ε α) f = .error e := rfl

@[simp]
theorem emap_ok {ε α β : Type} (a : α) (f : α → β) :
    Except.map f (Except.ok a : Except ε α) = .ok (f a) := rfl

@[simp]
theorem emap_error {ε α β : Type} (e : ε) (f : α → β) :
    Except.map f (Except.error e : Except ε α) = .error e := rfl

/-- Popping exactly `args.length` values off a stack whose top segment is
`args` yields the values in pop order (the reverse of push order) and leaves
the rest of the stack intact. -/
theorem popValues_append (args : List Value) : ∀ rest : List Value,
    popValues args.length (rest ++ args) = .ok (args.reverse, rest) := by
  induction args using List.reverseRecOn with
  | nil => intro rest; simp [popValues]
  | append_singleton as a ih =>
    intro rest
    rw [show rest ++ (as ++ [a]) = (rest ++ as) ++ [a] by simp,
      List.length_append]
    simp only [List.length_singleton, popValues, EvaluationStack.pop_any,
      List.getLast?_concat, List.dropLast_concat, ebind_ok]
    rw [ih rest]
    simp

/-- C6: `CallFunc` pops the argument count, pops that many values, reverses
them back into call order, invokes the library under the operand name, and
pushes the returned value; concretely,
`PushFloat 3; PushFloat 4; PushFloat 2; CallFunc "Number.Add"` under the
builtin library leaves `Number(7)` as the top of the stack when the node
completes. -/
theorem call_func_pops_reverses_and_pushes :
    (∀ (lib : Library) (story : Story) (node : Node) (name : String)
      (rest args : List Value) (count : F32) (vars : VarStore) (ret : Value),
      F32.toUsize count = args.length →
      Library.call lib name ⟨node, story, vars⟩ args = .ok ret →
      execute lib story node .CallFunc [strOp name]
          ((rest ++ args) ++ [.FloatValue count]) vars
        = .ok (.Next, none, rest ++ [ret], vars))
  ∧ stepFuel Library.builtins emptyStory 10 callFuncNode 0 [] []
      = .ok ((⟨callFuncNode, 5, [.FloatValue ⟨7, 1⟩]⟩, .Complete), []) := by
  constructor
  · intro lib story node name rest args count vars ret hcount hcall
    simp only [execute, Operands.at, strOp, List.get?, Option.bind,
      tryFromString, ebindf_ok, liftVal_ok, pbind_ok,
      EvaluationStack.pop, List.getLast?_concat, List.dropLast_concat,
      tryFromFloat, emap_ok, hcount]
    rw [popValues_append args rest]
    simp [hcall, EvaluationStack.push]
  · decide

/-- C6 witness: the general `CallFunc` clause instantiated at the builtin
library with `Number.Add`, the arguments 3 and 4 and the count 2 on top of a
one-element remainder stack. -/
theorem call_func_pops_reverses_and_pushes_witness :
    execute Library.builtins emptyStory callFuncNode .CallFunc
        [strOp "Number.Add"]
        (([.BoolValue true] ++ [.FloatValue ⟨3, 1⟩, .FloatValue ⟨4, 1⟩])
          ++ [.FloatValue ⟨2, 1⟩]) []
      = .ok (.Next, none, [.BoolValue true] ++ [.FloatValue ⟨7, 1⟩], []) := by
  exact call_func_pops_reverses_and_pushes.1 Library.builtins emptyStory
    callFuncNode "Number.Add" [.BoolValue true]
    [.FloatValue ⟨3, 1⟩, .FloatValue ⟨4, 1⟩] ⟨2, 1⟩ [] (.FloatValue ⟨7, 1⟩)
    (by decide) (by decide)

/-- C8: `JumpIfFalse` reads a boolean condition from the stack without popping
it — the stack in the result is the stack it was given — jumping to the
operand label when the condition is false and advancing otherwise; concretely,
on stack `[false]` the node
`[JumpIfFalse "end"; RunLine "skip" 0; Label end: Stop]` steps to `Complete`
with the line skipped and `false` still on the stack. -/
theorem jump_if_false_peeks_and_branches :
    (∀ (lib : Library) (story : Story) (node : Node) (operands : List Operand)
      (stack : EvaluationStack) (vars : VarStore) (c : Bool),
      EvaluationStack.peek tryFromBool stack = .ok c →
      (c = true →
        execute lib story node .JumpIfFalse operands stack vars
          = .ok (.Next, none, stack, vars)) ∧
      (∀ (labelName : String) (target : Nat), c = false →
        (Operands.at operands 0).bind tryFromString = .ok labelName →
        node.resolve_label labelName = .ok target →
        execute lib story node .JumpIfFalse operands stack vars
          = .ok (.Jump node target, none, stack, vars)))
  ∧ stepFuel [] emptyStory 10 jumpIfFalseNode 0 [.BoolValue false] []
      = .ok ((⟨jumpIfFalseNode, 3, [.BoolValue false]⟩, .Complete), []) := by
  constructor
  · intro lib story node operands stack vars c hpeek
    constructor
    · intro hc
      subst hc
      simp [execute, hpeek]
    · intro labelName target hc hop hlabel
      subst hc
      simp [execute, hpeek, hop, hlabel]
  · decide

/-- C8 witness: the general clauses instantiated on the two-element stack
`[true, false]` (bottom to top, where the source's peek reads the bottom
`true` and advances) and on the singleton `[false]` (where it jumps), with the
stack unchanged in both results. -/
theorem jump_if_false_peeks_and_branches_witness :
    execute [] emptyStory jumpIfFalseNode .JumpIfFalse [strOp "end"]
        [.BoolValue true, .BoolValue false] []
      = .ok (.Next, none, [.BoolValue true, .BoolValue false], [])
  ∧ execute [] emptyStory jumpIfFalseNode .JumpIfFalse [strOp "end"]
        [.BoolValue false] []
      = .ok (.Jump jumpIfFalseNode 2, none, [.BoolValue false], []) := by
  constructor
  · exact (jump_if_false_peeks_and_branches.1 [] emptyStory jumpIfFalseNode
      [strOp "end"] [.BoolValue true, .BoolValue false] [] true rfl).1 rfl
  · exact (jump_if_false_peeks_and_branches.1 [] emptyStory jumpIfFalseNode
      [strOp "end"] [.BoolValue false] [] false rfl).2 "end" 2 rfl rfl (by decide)

/-- Unfolding of the `RunCommand` substitution loop for a count of two: the
top string replaces `"\x7b1\x7d"` first, then the next string replaces
`"\x7b0\x7d"`. -/
theorem substituteCommand_two (text s0 s1 : String) (rest : EvaluationStack) :
    substituteCommand 2 text (rest ++ [.StringValue s0, .StringValue s1])
      = .ok (strReplace (strReplace text "\x7b1\x7d" s1) "\x7b0\x7d" s0, rest) := by
  have hsplit : rest ++ [Value.StringValue s0, Value.StringValue s1]
      = (rest ++ [Value.StringValue s0]) ++ [Value.StringValue s1] := by simp
  have h1 : ("\x7b" ++ toString (1 : Nat) ++ "\x7d") = "\x7b1\x7d" := by decide
  have h0 : ("\x7b" ++ toString (0 : Nat) ++ "\x7d") = "\x7b0\x7d" := by decide
  rw [hsplit]
  simp only [substituteCommand, EvaluationStack.pop, List.getLast?_concat,
    List.dropLast_concat, tryFromString, emap_ok, ebind_ok, h1, h0]

/-- C9: `RunCommand` with a command text and expression count two pops one
string per index from 1 down to 0 and replaces the literal `"\x7bi\x7d"` in
the text with it, then emits the substituted command; concretely, operands
`["wait \x7b0\x7d \x7b1\x7d", 2.0]` with stack top-to-bottom
`["slow", "2"]` produce the event `Command("wait 2 slow")`. -/
theorem run_command_substitutes_descending :
    (∀ (lib : Library) (story : Story) (node : Node) (text s0 s1 : String)
      (rest : EvaluationStack) (vars : VarStore),
      execute lib story node .RunCommand [strOp text, floatOp 2 1]
          (rest ++ [.StringValue s0, .StringValue s1]) vars
        = .ok (.Next,
            some (.Command (strReplace (strReplace text "\x7b1\x7d" s1)
              "\x7b0\x7d" s0)),
            rest, vars))
  ∧ stepFuel [] emptyStory 10 runCommandNode 0
        [.StringValue "2", .StringValue "slow"] []
      = .ok ((⟨runCommandNode, 1, []⟩, .Command "wait 2 slow"), []) := by
  constructor
  · intro lib story node text s0 s1 rest vars
    simp only [execute, Operands.at, strOp, floatOp, List.get?, Option.bind,
      tryFromString, tryFromFloat, ebindf_ok, liftVal_ok, pbind_ok,
      List.length_cons, List.length_nil]
    rw [if_pos (by decide), show F32.toUsize ⟨2, 1⟩ = 2 from by decide,
      substituteCommand_two text s0 s1 rest]
    rfl
  · decide

theorem pbind_eq_ok {ε α β : Type} {x : PResult ε α} {f : α → PResult ε β}
    {b : β} (h : x >>= f = .ok b) : ∃ a, x = .ok a ∧ f a = .ok b := by
  cases x with
  | ok a => exact ⟨a, rfl, h⟩
  | error e => exact absurd h (by simp)
  | panic m => exact absurd h (by simp)

/-- Classification of every successful instruction execution, combining the
facts the step-level invariants need: an arm that produces an event always
continues with `Next`; a jump target is the current node or a node looked up in
the story; and no arm other than `StoreVariable` and `CallFunc` changes the
variable store. -/
theorem execute_ok_analysis {lib : Library} {story : Story} {node : Node}
    {opcode : OpCode} {operands : List Operand} {stack : EvaluationStack}
    {vars : VarStore} {flow : ControlFlow} {ev : Option StoryEvent}
    {stack2 : EvaluationStack} {vars2 : VarStore}
    (h : execute lib story node opcode operands stack vars
        = .ok (flow, ev, stack2, vars2)) :
    (ev ≠ none → flow = .Next) ∧
    (∀ n t, flow = .Jump n t →
      n = node ∨ ∃ nm, Story.node story nm = some n) ∧
    (opcode ≠ .StoreVariable → opcode ≠ .CallFunc → vars2 = vars) := by
  cases opcode with
  | JumpTo =>
    simp only [execute] at h
    obtain ⟨l, hl, h⟩ := pbind_eq_ok h
    obtain ⟨o, ho, h⟩ := pbind_eq_ok h
    cases h
    exact ⟨fun hne => absurd rfl hne,
      fun n t hj => by cases hj; exact .inl rfl, fun _ _ => rfl⟩
  | Jump =>
    simp only [execute] at h
    obtain ⟨p, hp, h⟩ := pbind_eq_ok h
    obtain ⟨l, s⟩ := p
    obtain ⟨o, ho, h⟩ := pbind_eq_ok h
    cases h
    exact ⟨fun hne => absurd rfl hne,
      fun n t hj => by cases hj; exact .inl rfl, fun _ _ => rfl⟩
  | RunLine =>
    simp only [execute] at h
    obtain ⟨k, hk, h⟩ := pbind_eq_ok h
    split at h
    · obtain ⟨c, hc, h⟩ := pbind_eq_ok h
      obtain ⟨p, hp, h⟩ := pbind_eq_ok h
      obtain ⟨subs, s⟩ := p
      cases h
      exact ⟨fun _ => rfl, fun n t hj => ControlFlow.noConfusion hj, fun _ _ => rfl⟩
    · cases h
      exact ⟨fun _ => rfl, fun n t hj => ControlFlow.noConfusion hj, fun _ _ => rfl⟩
  | RunCommand =>
    simp only [execute] at h
    obtain ⟨k, hk, h⟩ := pbind_eq_ok h
    split at h
    · obtain ⟨c, hc, h⟩ := pbind_eq_ok h
      obtain ⟨p, hp, h⟩ := pbind_eq_ok h
      obtain ⟨text, s⟩ := p
      cases h
      exact ⟨fun _ => rfl, fun n t hj => ControlFlow.noConfusion hj, fun _ _ => rfl⟩
    · cases h
      exact ⟨fun _ => rfl, fun n t hj => ControlFlow.noConfusion hj, fun _ _ => rfl⟩
  | AddOption =>
    simp only [execute] at h
    obtain ⟨k, hk, h⟩ := pbind_eq_ok h
    obtain ⟨tg, htg, h⟩ := pbind_eq_ok h
    repeat'
      first
      | split at h
      | obtain ⟨_, -, h⟩ := pbind_eq_ok h
    all_goals
      cases h
    all_goals
      exact ⟨fun _ => rfl, fun n t hj => ControlFlow.noConfusion hj,
        fun _ _ => rfl⟩
  | ShowOptions =>
    simp only [execute] at h
    cases h
    exact ⟨fun _ => rfl, fun n t hj => ControlFlow.noConfusion hj, fun _ _ => rfl⟩
  | PushString =>
    simp only [execute] at h
    obtain ⟨v, hv, h⟩ := pbind_eq_ok h
    cases h
    exact ⟨fun hne => absurd rfl hne, fun n t hj => ControlFlow.noConfusion hj,
      fun _ _ => rfl⟩
  | PushFloat =>
    simp only [execute] at h
    obtain ⟨v, hv, h⟩ := pbind_eq_ok h
    cases h
    exact ⟨fun hne => absurd rfl hne, fun n t hj => ControlFlow.noConfusion hj,
      fun _ _ => rfl⟩
  | PushBool =>
    simp only [execute] at h
    obtain ⟨v, hv, h⟩ := pbind_eq_ok h
    cases h
    exact ⟨fun hne => absurd rfl hne, fun n t hj => ControlFlow.noConfusion hj,
      fun _ _ => rfl⟩
  | PushNull =>
    exact absurd h (by simp [execute])
  | JumpIfFalse =>
    simp only [execute] at h
    obtain ⟨c, hc, h⟩ := pbind_eq_ok h
    cases c with
    | true =>
      simp only [if_true] at h
      cases h
      exact ⟨fun hne => absurd rfl hne, fun n t hj => ControlFlow.noConfusion hj,
        fun _ _ => rfl⟩
    | false =>
      simp only [Bool.false_eq_true, if_false] at h
      obtain ⟨l, hl, h⟩ := pbind_eq_ok h
      obtain ⟨o, ho, h⟩ := pbind_eq_ok h
      cases h
      exact ⟨fun hne => absurd rfl hne,
        fun n t hj => by cases hj; exact .inl rfl, fun _ _ => rfl⟩
  | Pop =>
    simp only [execute] at h
    obtain ⟨p, hp, h⟩ := pbind_eq_ok h
    obtain ⟨v, s⟩ := p
    cases h
    exact ⟨fun hne => absurd rfl hne, fun n t hj => ControlFlow.noConfusion hj,
      fun _ _ => rfl⟩
  | CallFunc =>
    simp only [execute] at h
    obtain ⟨k, hk, h⟩ := pbind_eq_ok h
    obtain ⟨p, hp, h⟩ := pbind_eq_ok h
    obtain ⟨c, s⟩ := p
    obtain ⟨q, hq, h⟩ := pbind_eq_ok h
    obtain ⟨params, s2⟩ := q
    obtain ⟨r, hr, h⟩ := pbind_eq_ok h
    cases h
    exact ⟨fun hne => absurd rfl hne, fun n t hj => ControlFlow.noConfusion hj,
      fun _ hcf => absurd rfl hcf⟩
  | PushVariable =>
    simp only [execute] at h
    obtain ⟨k, hk, h⟩ := pbind_eq_ok h
    split at h
    · cases h
      exact ⟨fun hne => absurd rfl hne, fun n t hj => ControlFlow.noConfusion hj,
        fun _ _ => rfl⟩
    · split at h
      · cases h
        exact ⟨fun hne => absurd rfl hne, fun n t hj => ControlFlow.noConfusion hj,
          fun _ _ => rfl⟩
      · exact absurd h (by simp)
      · exact absurd h (by simp)
  | StoreVariable =>
    simp only [execute] at h
    obtain ⟨v, hv, h⟩ := pbind_eq_ok h
    obtain ⟨k, hk, h⟩ := pbind_eq_ok h
    cases h
    exact ⟨fun hne => absurd rfl hne, fun n t hj => ControlFlow.noConfusion hj,
      fun hsv _ => absurd rfl hsv⟩
  | Stop =>
    simp only [execute] at h
    cases h
    exact ⟨fun _ => rfl, fun n t hj => ControlFlow.noConfusion hj, fun _ _ => rfl⟩
  | RunNode =>
    simp only [execute] at h
    obtain ⟨p, hp, h⟩ := pbind_eq_ok h
    obtain ⟨nm, s⟩ := p
    split at h
    · cases h
      rename_i newNode hlook
      exact ⟨fun hne => absurd rfl hne,
        fun n t hj => by cases hj; exact .inr ⟨nm, hlook⟩, fun _ _ => rfl⟩
    · exact absurd h (by simp)

theorem mem_of_lookup_eq_some {α β : Type} [BEq α] [LawfulBEq α]
    {l : List (α × β)} {k : α} {v : β} (h : List.lookup k l = some v) :
    (k, v) ∈ l := by
  induction l with
  | nil => exact absurd h (by simp [List.lookup])
  | cons p t ih =>
    obtain ⟨a, b⟩ := p
    simp only [List.lookup] at h
    split at h
    · cases h
      rename_i hka
      have : k = a := by simpa using hka
      subst this
      exact List.mem_cons_self _ _
    · exact List.mem_cons_of_mem _ (ih h)

/-- Fetching an instruction at `pc` succeeds only below the instruction count. -/
theorem pc_lt_of_fetch {node : Node} {pc : Nat} {i : Instruction}
    (h : node.instructions.get? pc = some i) :
    pc < node.instructions.length := by
  by_contra hle
  rw [List.get?_eq_none.mpr (by omega)] at h
  cases h

/-- C4 counterexample: on the node holding a single `RunLine "k"` instruction
and the well-formed checkpoint `(node, 0, [])` with `0 < 1`, `step` returns the
non-`Complete` event `ShowLine` together with a checkpoint whose offset 1 is
not in `[0, 1)` — refuting the claimed in-range-or-`Complete`-or-error
trichotomy as stated. -/
theorem step_offset_leaves_range_at_last_instruction :
    stepFuel [] emptyStory 10 lastLineNode 0 [] []
      = .ok ((⟨lastLineNode, 1, []⟩, .ShowLine "k" []), [])
  ∧ (0 : Nat) < lastLineNode.instructions.length
  ∧ ¬ ((1 : Nat) < lastLineNode.instructions.length)
  ∧ StoryEvent.ShowLine "k" [] ≠ .Complete := by
  exact ⟨by decide, by decide, by decide, by decide⟩

/-- C4 (amended): whenever `step` returns successfully — with any event, since
an event-producing instruction at the final offset legitimately leaves the
offset equal to the instruction count — the returned checkpoint's offset lies
in `(0, len(node.instructions)]` for its node; and whenever `step` returns an
error, the error carries the offending node name, program counter and the
instruction actually stored at that counter of a node that is the entry node
or a node of the story.  (Out-of-range fetches and missing `RunNode` targets
panic instead of returning.) -/
theorem step_ok_offset_bounded_and_error_context (lib : Library)
    (story : Story) :
    ∀ (fuel : Nat) (node : Node) (pc : Nat) (stack : EvaluationStack)
      (vars : VarStore),
    (∀ cp ev vars2,
      stepFuel lib story fuel node pc stack vars = .ok ((cp, ev), vars2) →
      0 < cp.node_instruction_offset ∧
        cp.node_instruction_offset ≤ cp.node.instructions.length) ∧
    (∀ e, stepFuel lib story fuel node pc stack vars = .error e →
      ∃ n : Node, (n = node ∨ ∃ nm, Story.node story nm = some n) ∧
        e.node = n.name ∧ n.instructions.get? e.pc = some e.instruction) := by
  intro fuel
  induction fuel with
  | zero =>
    intro node pc stack vars
    refine ⟨?_, ?_⟩
    · intro cp ev vars2 h
      exact absurd h (by simp [stepFuel])
    · intro e h
      exact absurd h (by simp [stepFuel])
  | succ fuel ih =>
    intro node pc stack vars
    constructor
    · intro cp ev vars2 h
      simp only [stepFuel] at h
      split at h
      · exact absurd h (by simp)
      · rename_i instruction hfetch
        split at h
        · exact absurd h (by simp)
        · exact absurd h (by simp)
        · rename_i flow event stack3 vars3 heq
          split at heq
          · exact absurd heq (by simp)
          · rename_i opcode hdec
            split at h
            · rename_i e0
              cases h
              have hflow : flow = .Next :=
                (execute_ok_analysis heq).1 (by simp)
              subst hflow
              exact ⟨Nat.succ_pos pc, pc_lt_of_fetch hfetch⟩
            · cases flow with
              | Next => exact (ih node (pc + 1) stack3 vars3).1 cp ev vars2 h
              | Jump n2 t => exact (ih n2 t stack3 vars3).1 cp ev vars2 h
    · intro e h
      simp only [stepFuel] at h
      split at h
      · exact absurd h (by simp)
      · rename_i instruction hfetch
        split at h
        · exact absurd h (by simp)
        · rename_i source heq
          cases h
          exact ⟨node, .inl rfl, rfl, hfetch⟩
        · rename_i flow event stack3 vars3 heq
          split at heq
          · exact absurd heq (by simp)
          · rename_i opcode hdec
            split at h
            · exact absurd h (by simp)
            · have hprov := (execute_ok_analysis heq).2.1
              cases flow with
              | Next =>
                obtain ⟨n, hn, hrest⟩ := (ih node (pc + 1) stack3 vars3).2 e h
                exact ⟨n, hn, hrest⟩
              | Jump n2 t =>
                obtain ⟨n, hn, hrest⟩ := (ih n2 t stack3 vars3).2 e h
                refine ⟨n, ?_, hrest⟩
                cases hn with
                | inl hh =>
                  subst hh
                  exact hprov _ _ rfl
                | inr hh => exact .inr hh

/-- C4 witness: the bound instantiated through the concrete single-`RunLine`
program, whose successful step returns offset 1 with one instruction. -/
theorem step_ok_offset_bounded_witness :
    0 < (⟨lastLineNode, 1, []⟩ : StoryCheckpoint).node_instruction_offset
  ∧ (⟨lastLineNode, 1, []⟩ : StoryCheckpoint).node_instruction_offset
      ≤ lastLineNode.instructions.length :=
  (step_ok_offset_bounded_and_error_context [] emptyStory 10 lastLineNode
    0 [] []).1 ⟨lastLineNode, 1, []⟩ (.ShowLine "k" []) [] (by decide)

/-- A successful step over instructions that are never `StoreVariable` or
`CallFunc` returns the variable store it was given. -/
theorem stepFuel_vars_frame (lib : Library) (story : Story)
    (hstory : storyPreservesVars story = true) :
    ∀ (fuel : Nat) (node : Node) (pc : Nat) (stack : EvaluationStack)
      (vars : VarStore) (cp : StoryCheckpoint) (ev : StoryEvent)
      (vars2 : VarStore),
    nodePreservesVars node = true →
    stepFuel lib story fuel node pc stack vars = .ok ((cp, ev), vars2) →
    vars2 = vars := by
  intro fuel
  induction fuel with
  | zero =>
    intro node pc stack vars cp ev vars2 hnode h
    exact absurd h (by simp [stepFuel])
  | succ fuel ih =>
    intro node pc stack vars cp ev vars2 hnode h
    simp only [stepFuel] at h
    split at h
    · exact absurd h (by simp)
    · rename_i instruction hfetch
      split at h
      · exact absurd h (by simp)
      · exact absurd h (by simp)
      · rename_i flow event stack3 vars3 heq
        split at heq
        · exact absurd heq (by simp)
        · rename_i opcode hdec
          have hmem : instruction ∈ node.instructions := List.get?_mem hfetch
          have hopc := (List.all_eq_true.mp hnode) instruction hmem
          rw [hdec] at hopc
          have hnsv : opcode ≠ .StoreVariable := by
            intro hx
            subst hx
            simp at hopc
          have hncf : opcode ≠ .CallFunc := by
            intro hx
            subst hx
            simp at hopc
          have hvars : vars3 = vars := (execute_ok_analysis heq).2.2 hnsv hncf
          split at h
          · cases h
            exact hvars
          · cases flow with
            | Next =>
              exact (ih node (pc + 1) stack3 vars3 cp ev vars2 hnode h).trans hvars
            | Jump n2 t =>
              have hprov := (execute_ok_analysis heq).2.1 n2 t rfl
              have hn2 : nodePreservesVars n2 = true := by
                cases hprov with
                | inl hh =>
                  rw [hh]
                  exact hnode
                | inr hh =>
                  obtain ⟨nm, hlook⟩ := hh
                  exact (List.all_eq_true.mp hstory) (nm, n2)
                    (mem_of_lookup_eq_some hlook)
              exact (ih n2 t stack3 vars3 cp ev vars2 hn2 h).trans hvars

/-- C5 counterexample: the claim quantifies over every story and variable
store, but the store is shared mutable state.  On the node
`[PushString "b"; PushVariable "x"; StoreVariable "x"; RunLine "l" 1]` with
store `x = "a"`, stepping the clone emits `ShowLine "l" ["a"]` and rewrites
`x` to `"b"`; stepping the original afterwards (same checkpoint, the store the
clone left behind) emits `ShowLine "l" ["b"]` — not the event it yields when
the clone has never been stepped. -/
theorem checkpoint_purity_fails_on_shared_varstore :
    stepFuel [] emptyStory 10 purityNode 0 [] [("x", .StringValue "a")]
      = .ok ((⟨purityNode, 4, [.StringValue "b"]⟩, .ShowLine "l" ["a"]),
          [("x", .StringValue "b")])
  ∧ stepFuel [] emptyStory 10 purityNode 0 [] [("x", .StringValue "b")]
      = .ok ((⟨purityNode, 4, [.StringValue "b"]⟩, .ShowLine "l" ["b"]),
          [("x", .StringValue "b")])
  ∧ StoryEvent.ShowLine "l" ["b"] ≠ .ShowLine "l" ["a"] := by
  exact ⟨by decide, by decide, by decide⟩

/-- C5 (amended): `step` never mutates the checkpoint value it is given, and
the shared variable store is the only channel between the clone's step and the
original's: whenever the instructions in reach contain no `StoreVariable` and
no `CallFunc` (the opcodes that may write the store), the clone's step returns
the store unchanged, and the original's step after the clone's equals the
original's step as if the clone had never been stepped — for every story,
variable store and fuel. -/
theorem checkpoint_purity_modulo_varstore (lib : Library) (story : Story)
    (fuel fuel2 : Nat) (node : Node) (pc : Nat) (stack : EvaluationStack)
    (vars vars1 : VarStore) (cp1 : StoryCheckpoint) (ev1 : StoryEvent)
    (hstory : storyPreservesVars story = true)
    (hnode : nodePreservesVars node = true)
    (hclone : stepFuel lib story fuel node pc stack vars
        = .ok ((cp1, ev1), vars1)) :
    vars1 = vars ∧
    stepFuel lib story fuel2 node pc stack vars1
      = stepFuel lib story fuel2 node pc stack vars := by
  have hv := stepFuel_vars_frame lib story hstory fuel node pc stack vars
    cp1 ev1 vars1 hnode hclone
  exact ⟨hv, by rw [hv]⟩

/-- C5 witness: the amended theorem applied to the store-preserving
single-`RunLine` node, whose clone step leaves the store `x = "a"` intact. -/
theorem checkpoint_purity_modulo_varstore_witness :
    [("x", Value.StringValue "a")] = [("x", Value.StringValue "a")] ∧
    stepFuel [] emptyStory 7 lineOnlyNode 0 [] [("x", .StringValue "a")]
      = stepFuel [] emptyStory 7 lineOnlyNode 0 [] [("x", .StringValue "a")] :=
  checkpoint_purity_modulo_varstore [] emptyStory 5 7 lineOnlyNode 0 []
    [("x", .StringValue "a")] [("x", .StringValue "a")]
    ⟨lineOnlyNode, 1, []⟩ (.ShowLine "w" []) (by decide) (by decide) (by decide)

end Fabula
